import Mathlib

/-
Shallow embedding of the SLaMA_school capacity-analysis core
(sections, elements, subassemblies, frame aggregators) over exact
rationals.  Numeric library routines that the Python code delegates to
(math.sqrt on admissible arguments, np.roots root selection, scipy
fsolve, the discretized-curve intersection helper) are modelled as
oracle parameters: every theorem below is proved for an arbitrary
interpretation of those routines, so no result depends on their values.
-/

/-- Direction of push / bending, from model.enums.Direction. -/
inductive PushDirection
  | Positive
  | Negative
deriving DecidableEq, Repr

/-- Node classification, from model.enums.NodeType. -/
inductive NodeTypeQ
  | Internal
  | External
  | TopInternal
  | TopExternal
  | Base
deriving DecidableEq, Repr

/-- Failure mode tag, from model.enums.FailureType. -/
inductive FailureTypeQ
  | ShearDuctile
  | ShearFragile
  | Moment
deriving DecidableEq, Repr

/-- Element tag, from model.enums.ElementType. -/
inductive ElementTypeQ
  | Joint
  | Beam
  | Column
  | AboveColumn
  | BelowColumn
  | LeftBeam
  | RightBeam
deriving DecidableEq, Repr

/-- Concrete material record (src/concrete/concrete.py); the string id is
irrelevant to the computations and omitted. -/
structure ConcreteQ where
  fc : ℚ
  E : ℚ
  epsilon_0 : ℚ
  epsilon_u : ℚ
deriving DecidableEq, Repr

/-- Steel material record (src/steel/steel.py). -/
structure SteelQ where
  fy : ℚ
  fu : ℚ
  E : ℚ
  epsilon_u : ℚ
deriving DecidableEq, Repr

/-- Derived yield strain, Steel.epsilon_y. -/
def SteelQ.epsilon_y (s : SteelQ) : ℚ := s.fy / s.E

/-- Validated section geometry record (model/validation/section_model.py
BasicSectionInput).  As is the bottom reinforcement area, As1 the top one. -/
structure SectionData where
  h : ℚ
  b : ℚ
  cover : ℚ
  As : ℚ
  As1 : ℚ
  eq_bar_diameter : ℚ
  Ast : ℚ
  s : ℚ
deriving DecidableEq, Repr

/-- A BasicSection: geometry plus its materials (src/sections/basic_section.py). -/
structure SectionQ where
  data : SectionData
  concrete : ConcreteQ
  steel : SteelQ
deriving DecidableEq, Repr

/-- BasicSection.get_height. -/
def SectionQ.get_height (s : SectionQ) : ℚ := s.data.h

/-- BasicSection.get_effective_width. -/
def SectionQ.get_effective_width (s : SectionQ) : ℚ := s.data.b

/-- BasicSection.get_depth. -/
def SectionQ.get_depth (s : SectionQ) : ℚ := s.data.h - s.data.cover

/-- Moment-curvature output record (src/sections/__init__.py). -/
structure MomentCurvatureQ where
  mom_y : ℚ
  mom_c : ℚ
  phi_y : ℚ
  phi_c : ℚ
deriving DecidableEq, Repr

/-- Shear envelope output record (src/sections/__init__.py). -/
structure ShearEnvelopeQ where
  cap_undamaged : ℚ
  cap_residual : ℚ
  duc_undamaged : ℚ
  duc_residual : ℚ
deriving DecidableEq, Repr

/-- Four-point MN interaction domain record (src/sections/__init__.py). -/
structure MNDomainQ where
  moment : List ℚ
  axial : List ℚ
deriving DecidableEq, Repr

/-- Moment-rotation output record (src/elements/element.py). -/
structure MomentRotationQ where
  mom_y : ℚ
  mom_c : ℚ
  rot_y : ℚ
  rot_c : ℚ
  failure : FailureTypeQ
deriving DecidableEq, Repr

/-- Oracle interpretations of the external numeric routines used by the
Python code.  sqrtQ models math.sqrt applied to an admissible (nonnegative)
argument; maxRoot and minRoot model max(np.roots([a, b, c])) and
min(np.roots([a, b, c])); solve models scipy.optimize.fsolve(f, x0)[0];
curveIntersect models src.utils.intersection on discretized curves. -/
structure Oracles where
  sqrtQ : ℚ → ℚ
  maxRoot : ℚ → ℚ → ℚ → ℚ
  minRoot : ℚ → ℚ → ℚ → ℚ
  solve : (ℚ → ℚ) → ℚ → ℚ
  curveIntersect : List ℚ → List ℚ → List ℚ → List ℚ → Option (ℚ × ℚ)

/-- Python round to an integer: round-half-to-even (banker's rounding). -/
def pyRoundInt (q : ℚ) : ℤ :=
  let f : ℤ := ⌊q⌋
  let r : ℚ := q - f
  if r < 1/2 then f
  else if 1/2 < r then f + 1
  else if f % 2 = 0 then f else f + 1

/-- Python round(x, ndigits=2). -/
def pyRound2 (q : ℚ) : ℚ := (pyRoundInt (q * 100) : ℚ) / 100

/-- Linear interpolation helper over the segment from (x1, y1) to (x2, y2). -/
def linSeg (x1 y1 x2 y2 x : ℚ) : ℚ := y1 + (y2 - y1) * (x - x1) / (x2 - x1)

/-- Interior walk of numpy.interp over paired sample points. -/
def npInterpAux (x : ℚ) : List (ℚ × ℚ) → ℚ
  | [] => 0
  | [(_, f1)] => f1
  | (x1, f1) :: (x2, f2) :: rest =>
      if x ≤ x2 then linSeg x1 f1 x2 f2 x
      else npInterpAux x ((x2, f2) :: rest)

/-- numpy.interp(x, xp, fp, left, right) on increasing sample points:
left of the first sample point it returns left, right of the last it
returns right, otherwise it interpolates linearly. -/
def npInterp (x : ℚ) (xp fp : List ℚ) (left right : ℚ) : ℚ :=
  match xp.head?, xp.getLast? with
  | some x0, some xl =>
      if x < x0 then left
      else if xl < x then right
      else npInterpAux x (xp.zip fp)
  | _, _ => 0

/-- Frame-level capacity curve record (model/data_models/capacity.py). -/
structure FrameCapacityQ where
  name : String
  mass : ℚ
  disp : List ℚ
  base_shear : List ℚ
deriving DecidableEq, Repr

/-- Insert a value into a sorted duplicate-free list, keeping it sorted and
duplicate-free. -/
def insertSortedDedup (x : ℚ) : List ℚ → List ℚ
  | [] => [x]
  | y :: ys =>
      if x < y then x :: y :: ys
      else if x = y then y :: ys
      else y :: insertSortedDedup x ys

/-- sorted(set(xs + ys)) of Python: the sorted duplicate-free union of the
two lists of displacements. -/
def sortedDedupUnion (xs ys : List ℚ) : List ℚ :=
  xs.foldr insertSortedDedup (ys.foldr insertSortedDedup [])

/-- FrameCapacity.__add__ (model/data_models/capacity.py): displacements are
the sorted set union, each operand is re-interpolated at every breakpoint
with np.interp(d, disp, base_shear, right=0.), and the re-interpolated
shears are summed; the mass is additive and the names are concatenated. -/
def FrameCapacityQ.add (a b : FrameCapacityQ) : FrameCapacityQ :=
  let disps := sortedDedupUnion a.disp b.disp
  let self_bs := disps.map (fun d => npInterp d a.disp a.base_shear (a.base_shear.headD 0) 0)
  let other_bs := disps.map (fun d => npInterp d b.disp b.base_shear (b.base_shear.headD 0) 0)
  { name := a.name ++ " + " ++ b.name
    mass := a.mass + b.mass
    disp := disps
    base_shear := List.zipWith (fun s o => s + o) self_bs other_bs }

/-- FrameCapacity.__mul__: scale base shear and mass by a repetition count. -/
def FrameCapacityQ.scale (a : FrameCapacityQ) (k : ℚ) : FrameCapacityQ :=
  { name := a.name
    mass := a.mass * k
    disp := a.disp
    base_shear := a.base_shear.map (fun bs => bs * k) }

/-- Four-point MN interaction diagram, four_points_MN_domain
(src/sections/basic_section.py): pure tension point A, two
compression-controlled points B and C at the concrete ultimate strain with
assumed tension-steel strain 10^-2 and the yield strain respectively, and
the mirrored pure compression point D.  A negative direction swaps the
reinforcement roles. -/
def four_points_MN_domain (sd : SectionData) (conc : ConcreteQ) (steel : SteelQ)
    (dir : PushDirection) : MNDomainQ :=
  let ec_u := conc.epsilon_u
  let fc := conc.fc
  let b := sd.b
  let h := sd.h
  let cop := sd.cover
  let As_top := match dir with
    | .Positive => sd.As1
    | .Negative => sd.As
  let As_bot := match dir with
    | .Positive => sd.As
    | .Negative => sd.As1
  let E_s := steel.E
  let ey_s := steel.epsilon_y
  let fy_s := steel.fy
  let axial_A := - fy_s * (As_top + As_bot)
  let moment_A := fy_s * (As_bot - As_top) * (h / 2 - cop)
  let neutral_axis_B := (h - cop) * ec_u / (ec_u + 1/100)
  let es_top_B := ec_u / neutral_axis_B * (neutral_axis_B - cop)
  let axial_B := neutral_axis_B * 0.8 * b * fc + As_top * min (E_s * es_top_B) fy_s - As_bot * fy_s
  let moment_B := neutral_axis_B * 0.8 * b * fc * (h/2 - 0.4 * neutral_axis_B)
    + As_top * min (E_s * es_top_B) fy_s * (h/2 - cop)
    + As_bot * fy_s * (h/2 - cop)
  let neutral_axis_C := (h - cop) * ec_u / (ec_u + ey_s)
  let es_top_C := ec_u / neutral_axis_C * (neutral_axis_C - cop)
  let axial_C := neutral_axis_C * 0.8 * b * fc + As_top * min (E_s * es_top_C) fy_s - As_bot * fy_s
  let moment_C := neutral_axis_C * 0.8 * b * fc * (h/2 - 0.4 * neutral_axis_C)
    + As_top * min (E_s * es_top_C) fy_s * (h/2 - cop)
    + As_bot * fy_s * (h/2 - cop)
  let axial_D := b * h * fc - axial_A
  let moment_D := - moment_A
  { moment := [moment_A, moment_B, moment_C, moment_D]
    axial := [axial_A, axial_B, axial_C, axial_D] }

/-- BasicSection.domain_MN: linear interpolation of the four-point domain,
clamped to 0 outside the covered axial range (np.interp with left=0,
right=0). -/
def SectionQ.domain_MN (s : SectionQ) (axial : ℚ)
    (dir : PushDirection := .Positive) : ℚ :=
  let domain := four_points_MN_domain s.data s.concrete s.steel dir
  npInterp axial domain.axial domain.moment 0 0

/-- Analytic stress-block moment-curvature, analytic_moment_curvature
(src/sections/basic_section.py):  a yield state solved from the admissible
(maximal) root of a quadratic in the extreme concrete-fiber strain, and a
capacity state solved from the admissible (minimal) root of a quadratic in
the extreme tension-fiber strain, re-solved with both steel layers at yield
when the first solution implies the top steel yields too.  A negative
direction swaps the reinforcement roles. -/
def analytic_moment_curvature (O : Oracles) (sd : SectionData) (conc : ConcreteQ)
    (steel : SteelQ) (dir : PushDirection) (axial : ℚ) : MomentCurvatureQ :=
  let E_c := conc.E
  let ec_u := conc.epsilon_u
  let fc := conc.fc
  let b := sd.b
  let h := sd.h
  let cop := sd.cover
  let As_top := match dir with
    | .Positive => sd.As1
    | .Negative => sd.As
  let As_bot := match dir with
    | .Positive => sd.As
    | .Negative => sd.As1
  let d_top := cop
  let d_bot := h - cop
  let E_s := steel.E
  let ey_s := steel.epsilon_y
  let fy_s := steel.fy
  let ec_top := O.maxRoot
    (0.5 * E_c * b * d_bot + E_s * As_top * (1 - d_top/d_bot))
    (- (ey_s * E_s * As_top * (2 * d_top/d_bot - 1)) - As_bot * fy_s - axial)
    (- (ey_s * (axial + As_bot * fy_s + E_s * As_top * ey_s * d_top/d_top)))
  let curvature_y := (ec_top + ey_s) / d_bot
  let n_axis_y := d_bot * ec_top / (ec_top + ey_s)
  let es_top_y := curvature_y * (n_axis_y - cop)
  let steel_force_top_y := es_top_y * E_s * As_top
  let steel_force_bot_y := (- fy_s) * As_bot
  let steel_moment_y := steel_force_top_y * (h/2 - d_top) + steel_force_bot_y * (h/2 - d_bot)
  let concrete_moment_y := 0.5 * E_c * ec_top * b * n_axis_y * (h/2 - n_axis_y/3)
  let moment_yielding := steel_moment_y + concrete_moment_y
  let es_bot := O.minRoot
    (- (E_s * As_top * d_top/d_bot))
    (axial + fy_s * As_bot + E_s * As_top * ec_u * (2 * d_top/d_bot - 1))
    ((0.8 * fc * b * d_bot + E_s * As_top * ec_u * (1 - d_top/d_bot) - fy_s * As_bot - axial) * ec_u)
  let curvature_c0 := (ec_u - es_bot) / d_bot
  let n_axis_c0 := d_bot * ec_u / (ec_u - es_bot)
  let es_top_c0 := curvature_c0 * (n_axis_c0 - cop)
  let state :=
    if es_top_c0 > ey_s then
      let es_bot2 := ec_u * (0.8 * fc * b * d_bot + fy_s * (As_top - As_bot) - axial)
        / (fy_s * (As_top - As_bot) - axial)
      let curvature2 := (ec_u - es_bot2) / d_bot
      let n_axis2 := d_bot * ec_u / (ec_u - es_bot2)
      (curvature2, n_axis2, fy_s)
    else
      (curvature_c0, n_axis_c0, es_top_c0 * E_s)
  let curvature_c := state.1
  let n_axis_c := state.2.1
  let steel_tension_top := state.2.2
  let steel_force_top_c := steel_tension_top * As_top
  let steel_force_bot_c := (- fy_s) * As_bot
  let steel_moment_c := steel_force_top_c * (h/2 - d_top) + steel_force_bot_c * (h/2 - d_bot)
  let concrete_moment_c := 0.8 * fc * b * n_axis_c * (h/2 - 0.4 * n_axis_c)
  let moment_capacity := steel_moment_c + concrete_moment_c
  { mom_y := moment_yielding
    mom_c := moment_capacity
    phi_y := curvature_y
    phi_c := curvature_c }

/-- BasicSection.moment_curvature: dispatches to the stress-block algorithm
with the axial load rounded to 2 digits. -/
def SectionQ.moment_curvature (O : Oracles) (s : SectionQ) (dir : PushDirection)
    (axial : ℚ) : MomentCurvatureQ :=
  analytic_moment_curvature O s.data s.concrete s.steel dir (pyRound2 axial)

/-- NZSEE2017 shear capacity model, shear_NZSEE2017
(src/sections/basic_section.py): concrete, stirrup and axial contributions,
producing an undamaged/residual two-point envelope at ductilities 3 and 15. -/
def shear_NZSEE2017 (O : Oracles) (sd : SectionData) (conc : ConcreteQ)
    (steel : SteelQ) (L : ℚ) (axial : ℚ) : ShearEnvelopeQ :=
  let fc := conc.fc
  let b := sd.b
  let h := sd.h
  let s := sd.s
  let cop := sd.cover
  let As_bot := sd.As
  let As_top := sd.As1
  let d_top := cop
  let d_bot := h - cop
  let fy_s := steel.fy
  let section_depth := d_bot - d_top
  let alpha := min (1.5 : ℚ) (max 1 (3 - L/h))
  let beta := min (1 : ℚ) (0.5 + 20 * (As_top + As_bot) / (b * h))
  let sqrt_fc := O.sqrtQ (fc * (1/1000))
  let shear_concrete_undamaged := 0.29 * alpha * beta * 0.8 * section_depth * b * sqrt_fc * 1000
  let shear_concrete_residual := 0.05 * alpha * beta * 0.8 * section_depth * b * sqrt_fc * 1000
  let shear_steel := sd.Ast * fy_s * section_depth / s
  let indicative_neutral_axis := 0.15 * h
  let shear_axial := axial * (h - indicative_neutral_axis) / L
  { cap_undamaged := (shear_concrete_undamaged + shear_axial + shear_steel) * 0.85
    cap_residual := (shear_concrete_residual + shear_axial + shear_steel) * 0.85
    duc_undamaged := 3
    duc_residual := 15 }

/-- BasicSection.shear_capacity: dispatches to the NZSEE2017 formula with L
and axial rounded to 2 digits. -/
def SectionQ.shear_capacity (O : Oracles) (s : SectionQ) (L : ℚ) (axial : ℚ) :
    ShearEnvelopeQ :=
  shear_NZSEE2017 O s.data s.concrete s.steel (pyRound2 L) (pyRound2 axial)

/-- BasicSection.plastic_hinge_length (formulation from C5 NZSEE2017). -/
def SectionQ.plastic_hinge_length (s : SectionQ) (L : ℚ) : ℚ :=
  let k_factor := min (0.08 : ℚ) (0.2 * (s.steel.fu / s.steel.fy - 1))
  let strain_penetration := 0.022 * s.steel.fy * s.data.eq_bar_diameter * (1/1000000)
  k_factor * L/2 + strain_penetration

/-- A BasicElement (src/elements/basic_element.py): a section with its
stored clear length (already rounded to 2 digits at construction). -/
structure ElementQ where
  sect : SectionQ
  L : ℚ
deriving DecidableEq, Repr

/-- BasicElement.get_section. -/
def ElementQ.get_section (e : ElementQ) : SectionQ := e.sect

/-- Flexural moment-rotation backbone returned by the pure-flexure branches
of BasicElement.moment_rotation. -/
def flexuralMR (mc : MomentCurvatureQ) (rot_y rot_c : ℚ) : MomentRotationQ :=
  { mom_y := mc.mom_y
    mom_c := mc.mom_c
    rot_y := rot_y
    rot_c := rot_c
    failure := .Moment }

/-- BasicElement.moment_rotation (src/elements/basic_element.py): flexural
backbone from the section moment-curvature, optionally limited by the
shear envelope converted to equivalent moment-rotation, with the governing
failure mode resolved by the source's ordered case analysis. -/
def ElementQ.moment_rotation (O : Oracles) (e : ElementQ) (dir : PushDirection)
    (consider_shear_iteraction : Bool := true) (axial : ℚ := 0) : MomentRotationQ :=
  let mc := e.sect.moment_curvature O dir axial
  let plastic_hinge := e.sect.plastic_hinge_length e.L
  let yielding_rotation := mc.phi_y * e.L/6
  let plastic_rotation := plastic_hinge * (mc.phi_c - mc.phi_y)
  let capping_rotation := yielding_rotation + plastic_rotation
  if !consider_shear_iteraction then
    flexuralMR mc yielding_rotation capping_rotation
  else
    let sc := e.sect.shear_capacity O e.L axial
    let shear_moment_cap_undamaged := sc.cap_undamaged * e.L/2
    let shear_moment_cap_residual := sc.cap_residual * e.L/2
    let shear_rotation_undamaged :=
      yielding_rotation + (sc.duc_undamaged - 1) * plastic_hinge * mc.phi_y
    let shear_rotation_residual :=
      yielding_rotation + (sc.duc_residual - 1) * plastic_hinge * mc.phi_y
    if shear_moment_cap_residual ≥ mc.mom_c then
      flexuralMR mc yielding_rotation capping_rotation
    else if shear_moment_cap_undamaged ≤ mc.mom_y then
      let failure_rotation := shear_moment_cap_undamaged * yielding_rotation / mc.mom_y
      { mom_y := shear_moment_cap_undamaged
        mom_c := shear_moment_cap_undamaged
        rot_y := failure_rotation
        rot_c := failure_rotation
        failure := .ShearFragile }
    else if shear_rotation_undamaged ≥ capping_rotation ∧
        shear_moment_cap_undamaged ≥ mc.mom_c then
      flexuralMR mc yielding_rotation capping_rotation
    else
      let shear_interaction_slope := (shear_moment_cap_residual - shear_moment_cap_undamaged)
        / (shear_rotation_residual - shear_rotation_undamaged)
      let moment_interaction_slope := (mc.mom_c - shear_moment_cap_undamaged)
        / (capping_rotation - shear_rotation_undamaged)
      if shear_interaction_slope ≥ moment_interaction_slope then
        flexuralMR mc yielding_rotation capping_rotation
      else
        let shear_envelope_moment :=
          [shear_moment_cap_undamaged, shear_moment_cap_undamaged, shear_moment_cap_residual]
        let shear_envelope_rotation := [0, shear_rotation_undamaged, shear_rotation_residual]
        let beam_curve_moment := [0, mc.mom_y, mc.mom_c]
        let beam_curve_rotation := [0, yielding_rotation, capping_rotation]
        let shear_envelope_rotation :=
          if shear_rotation_residual ≤ capping_rotation then
            shear_envelope_rotation ++ [capping_rotation]
          else shear_envelope_rotation
        let shear_envelope_moment :=
          if shear_rotation_residual ≤ capping_rotation then
            shear_envelope_moment ++ [shear_moment_cap_residual]
          else shear_envelope_moment
        match O.curveIntersect beam_curve_rotation beam_curve_moment
            shear_envelope_rotation shear_envelope_moment with
        | none => flexuralMR mc yielding_rotation capping_rotation
        | some (rot_c, mom_c) =>
            { mom_y := mc.mom_y
              mom_c := mom_c
              rot_y := yielding_rotation
              rot_c := rot_c
              failure := .ShearDuctile }

/-- BasicElement.get_element_lenght. -/
def ElementQ.get_element_lenght (e : ElementQ) : ℚ := e.L

/-- Configuration constants consumed by the subassembly module
(src/conf/config.yaml through model.config.MNINTConfig). -/
structure CfgQ where
  tension_kj_internal : ℚ
  tension_kj_external : ℚ
  tension_kj_top_internal : ℚ
  tension_kj_top_external : ℚ
  tension_kj_base : ℚ
  compression_kj_value : ℚ
  external_node_rotation_yielding : ℚ
  external_node_rotation_ultimate : ℚ
  internal_node_rotation_yielding : ℚ
  internal_node_rotation_ultimate : ℚ
  cracking_rotation : ℚ
deriving DecidableEq, Repr

/-- Lookup of cfg.nodes.tension_kj_values by node type. -/
def CfgQ.tensionKj (cfg : CfgQ) : NodeTypeQ → ℚ
  | .Internal => cfg.tension_kj_internal
  | .External => cfg.tension_kj_external
  | .TopInternal => cfg.tension_kj_top_internal
  | .TopExternal => cfg.tension_kj_top_external
  | .Base => cfg.tension_kj_base

/-- A Subassembly record (src/subassembly.py): node id, sway sensitivity and
static axial load, half-lengths, and the up to four adjoining elements. -/
structure SubassemblyQ where
  node : ℕ
  delta_axial : ℚ
  axial : ℚ
  beam_length : ℚ
  column_length : ℚ
  left_beam : Option ElementQ := none
  right_beam : Option ElementQ := none
  below_column : Option ElementQ := none
  above_column : Option ElementQ := none
deriving DecidableEq, Repr

/-- Subassembly._find_nodetype: classification from which neighbors are
absent. -/
def SubassemblyQ.findNodetype (sub : SubassemblyQ) : NodeTypeQ :=
  if sub.below_column = none then .Base
  else if sub.above_column = none then
    if sub.left_beam = none ∨ sub.right_beam = none then .TopExternal
    else .TopInternal
  else if sub.left_beam = none ∨ sub.right_beam = none then .External
  else .Internal

/-- INTERNAL_NODES membership (src/subassembly.py). -/
def isInternalNode (nt : NodeTypeQ) : Bool :=
  nt = .Internal ∨ nt = .TopInternal

/-- TOP_NODES membership (src/subassembly.py). -/
def isTopNode (nt : NodeTypeQ) : Bool :=
  nt = .TopExternal ∨ nt = .TopInternal

/-- Subassembly.__post_init__ beam-depth validation for internal-node
subassemblies: the source compares the right beam's depth with the right
beam's own depth, and raises only when that comparison is unequal.  The
returned Bool is true exactly when the constructor raises (assertion
failures for missing beams on internal nodes included). -/
def post_init_depth_check_raises (sub : SubassemblyQ) : Bool :=
  if isInternalNode sub.findNodetype then
    match sub.right_beam, sub.left_beam with
    | some rb, some _ => decide (rb.get_section.get_depth ≠ rb.get_section.get_depth)
    | _, _ => true
  else false

/-- Validation the spec describes for internal-node subassemblies.
Modelled from the spec: raises exactly when the two adjoining beams have
mismatched depths ("internal nodes require all beams on a floor to share
identical depth").  The repository code was intended to implement this
comparison between the left and right beam depths. -/
def post_init_depth_check_spec_raises (sub : SubassemblyQ) : Bool :=
  if isInternalNode sub.findNodetype then
    match sub.right_beam, sub.left_beam with
    | some rb, some lb => decide (lb.get_section.get_depth ≠ rb.get_section.get_depth)
    | _, _ => true
  else false

/-- Subassembly._shear_moment_conversion_factor: converts a joint shear
capacity into an equivalent column moment; the asserted below column is
passed explicitly. -/
def shear_moment_conversion_factor (sub : SubassemblyQ) (bc : ElementQ) : ℚ :=
  let beam_height := max
    (match sub.right_beam with | some rb => rb.get_section.get_height | none => 0)
    (match sub.left_beam with | some lb => lb.get_section.get_height | none => 0)
  let beam_depth := min
    (match sub.right_beam with | some rb => rb.get_section.get_depth | none => 1000)
    (match sub.left_beam with | some lb => lb.get_section.get_depth | none => 1000)
  let beam_factor :=
    if isInternalNode sub.findNodetype then
      sub.beam_length - bc.get_section.get_height
    else
      sub.beam_length - 0.5 * bc.get_section.get_height
  let column_factor :=
    if isTopNode sub.findNodetype then
      sub.column_length - 0.5 * beam_height
    else
      0.5 * (sub.column_length - beam_height)
  (0.9 * column_factor * sub.beam_length * beam_depth)
    / (sub.column_length * beam_factor - 0.9 * sub.beam_length * beam_depth)

/-- Term under the square root of the joint tension-capacity formula of
Subassembly.domain_MN (the argument whose negativity makes math.sqrt raise
the caught ValueError). -/
def joint_tension_sqrt_arg (O : Oracles) (cfg : CfgQ) (sub : SubassemblyQ)
    (bc : ElementQ) (axial : ℚ) : ℚ :=
  let node_area := bc.get_section.get_effective_width * bc.get_section.get_height
  let tensile_strength_MPa := cfg.tensionKj sub.findNodetype
    * O.sqrtQ (bc.get_section.concrete.fc * (1/1000))
  1 + axial * (1/1000) / (node_area * tensile_strength_MPa)

/-- Joint tension capacity of Subassembly.domain_MN, expressed in
equivalent column moment. -/
def joint_tension_capacity (O : Oracles) (cfg : CfgQ) (sub : SubassemblyQ)
    (bc : ElementQ) (axial : ℚ) : ℚ :=
  let node_area := bc.get_section.get_effective_width * bc.get_section.get_height
  let tensile_strength_MPa := cfg.tensionKj sub.findNodetype
    * O.sqrtQ (bc.get_section.concrete.fc * (1/1000))
  0.85 * node_area * tensile_strength_MPa * 1000
    * O.sqrtQ (joint_tension_sqrt_arg O cfg sub bc axial)
    * shear_moment_conversion_factor sub bc

/-- Term under the square root of the compression branch of
Subassembly.domain_MN for fully internal joints. -/
def joint_compression_sqrt_arg (cfg : CfgQ) (_sub : SubassemblyQ)
    (bc : ElementQ) (axial : ℚ) : ℚ :=
  let node_area := bc.get_section.get_effective_width * bc.get_section.get_height
  let compression_strength_MPa := cfg.compression_kj_value
    * bc.get_section.concrete.fc * (1/1000)
  1 - axial * (1/1000) / (node_area * compression_strength_MPa)

/-- Joint compression capacity of Subassembly.domain_MN for fully internal
joints, expressed in equivalent column moment. -/
def joint_compression_capacity (O : Oracles) (cfg : CfgQ) (sub : SubassemblyQ)
    (bc : ElementQ) (axial : ℚ) : ℚ :=
  let node_area := bc.get_section.get_effective_width * bc.get_section.get_height
  let compression_strength_MPa := cfg.compression_kj_value
    * bc.get_section.concrete.fc * (1/1000)
  0.85 * node_area * compression_strength_MPa * 1000
    * O.sqrtQ (joint_compression_sqrt_arg cfg sub bc axial)
    * shear_moment_conversion_factor sub bc

/-- Body of Subassembly.domain_MN for a non-base subassembly, with the
asserted below column passed explicitly.  A negative term under either
square root reproduces the caught ValueError branch and yields 0. -/
def joint_domain_MN (O : Oracles) (cfg : CfgQ) (sub : SubassemblyQ)
    (bc : ElementQ) (axial : ℚ) : ℚ :=
  if joint_tension_sqrt_arg O cfg sub bc axial < 0 then 0
  else
    let tension_capacity := joint_tension_capacity O cfg sub bc axial
    if sub.findNodetype = .Internal then
      if joint_compression_sqrt_arg cfg sub bc axial < 0 then 0
      else min (joint_compression_capacity O cfg sub bc axial) tension_capacity
    else tension_capacity

/-- Subassembly.domain_MN (src/subassembly.py): for base nodes the above
column section's interpolated MN domain, otherwise the joint shear
capacity; none models an uncaught assertion failure. -/
def SubassemblyQ.domain_MN (O : Oracles) (cfg : CfgQ) (sub : SubassemblyQ)
    (axial : ℚ) : Option ℚ :=
  if sub.findNodetype = .Base then
    match sub.above_column with
    | none => none
    | some ac => some (ac.get_section.domain_MN axial)
  else
    match sub.below_column with
    | none => none
    | some bc => some (joint_domain_MN O cfg sub bc axial)

/-- Direction-signed delta axial used as divisor by
Subassembly.delta_axial_moment, with the zero case replaced by the 10^-6
epsilon. -/
def delta_axial_divisor (sub : SubassemblyQ) (dir : PushDirection) : ℚ :=
  let delta_N := if dir = .Positive then sub.delta_axial else - sub.delta_axial
  if delta_N = 0 then 1/1000000 else delta_N

/-- Subassembly.delta_axial_moment: the straight demand line giving the
moment that produces the given axial load. -/
def SubassemblyQ.delta_axial_moment (sub : SubassemblyQ) (axial : ℚ)
    (dir : PushDirection := .Positive) : ℚ :=
  1 / (- delta_axial_divisor sub dir) * (axial - sub.axial)

/-- flip_direction (src/subassembly.py). -/
def flip_direction : PushDirection → PushDirection
  | .Positive => .Negative
  | .Negative => .Positive

/-- get_node_rotations (src/subassembly.py): (yielding, ultimate) node
rotation capacities keyed by classification. -/
def get_node_rotations (cfg : CfgQ) (nt : NodeTypeQ) : ℚ × ℚ :=
  if isInternalNode nt then
    (cfg.internal_node_rotation_yielding, cfg.internal_node_rotation_ultimate)
  else
    (cfg.external_node_rotation_yielding, cfg.external_node_rotation_ultimate)

/-- Loop body of find_weakest: carry the current weakest key and its
capacity, replacing it whenever a strictly smaller capacity is met. -/
def findWeakestAux (best : ElementTypeQ × ℚ) :
    List (ElementTypeQ × ℚ) → ElementTypeQ × ℚ
  | [] => best
  | kv :: rest =>
      if kv.2 < best.2 then findWeakestAux kv rest
      else findWeakestAux best rest

/-- find_weakest (src/subassembly.py), returning the winning key paired
with its capacity (None on an empty capacity map). -/
def findWeakest : List (ElementTypeQ × ℚ) → Option (ElementTypeQ × ℚ)
  | [] => none
  | kv :: rest => some (findWeakestAux kv rest)

/-- analytical_intersection (src/utils.py): the root of the difference of
the two curves found by the solver seeded at the initial guess. -/
def analytical_intersection (O : Oracles) (initial_guess : ℚ)
    (function_1 function_2 : ℚ → ℚ) : ℚ :=
  O.solve (fun x => function_1 x - function_2 x) initial_guess

/-- Hierarchy output record SubHierarchy (src/subassembly.py). -/
structure SubHierarchyQ where
  beam_eq : ℚ
  rot_y : ℚ
  rot_c : ℚ
  weakest : ElementTypeQ
deriving DecidableEq, Repr

/-- Beam/column count ratio used by the hierarchy functions: beam_number
divided by columns_number. -/
def conversion_factor (sub : SubassemblyQ) : ℚ :=
  let columns_number : ℚ := (if sub.above_column.isSome then 1 else 0) + 1
  let beam_number : ℚ :=
    (if sub.left_beam.isSome then 1 else 0) + (if sub.right_beam.isSome then 1 else 0)
  beam_number / columns_number

/-- Candidate capacity map of single_hierarchy, in the source's insertion
order: for each present element and for the joint, the demand line
evaluated at the equilibrium axial load found by intersecting that
candidate's capacity curve with the demand line. -/
def single_hierarchy_capacities (O : Oracles) (cfg : CfgQ) (sub : SubassemblyQ)
    (bc : ElementQ) (dir : PushDirection) : List (ElementTypeQ × ℚ) :=
  let counter_direction := flip_direction dir
  let delta_axial_curve := fun axial => sub.delta_axial_moment axial dir
  (match sub.left_beam with
    | some lb =>
        let curve := fun _ : ℚ =>
          conversion_factor sub * (lb.moment_rotation O counter_direction).mom_c
        [(ElementTypeQ.LeftBeam,
          delta_axial_curve (analytical_intersection O sub.axial curve delta_axial_curve))]
    | none => []) ++
  (match sub.right_beam with
    | some rb =>
        let curve := fun _ : ℚ =>
          conversion_factor sub * (rb.moment_rotation O dir).mom_c
        [(ElementTypeQ.RightBeam,
          delta_axial_curve (analytical_intersection O sub.axial curve delta_axial_curve))]
    | none => []) ++
  (match sub.above_column with
    | some ac =>
        let curve := fun axial => ac.get_section.domain_MN axial
        [(ElementTypeQ.AboveColumn,
          delta_axial_curve (analytical_intersection O sub.axial curve delta_axial_curve))]
    | none => []) ++
  [(ElementTypeQ.BelowColumn,
    delta_axial_curve (analytical_intersection O sub.axial
      (fun axial => bc.get_section.domain_MN axial) delta_axial_curve))] ++
  [(ElementTypeQ.Joint,
    delta_axial_curve (analytical_intersection O sub.axial
      (fun axial => joint_domain_MN O cfg sub bc axial) delta_axial_curve))]

/-- Rotation selection of single_hierarchy for the winning element; none
models the uncaught assertion raised when the winner has no matching
element. -/
def single_hierarchy_rotations (O : Oracles) (cfg : CfgQ) (sub : SubassemblyQ)
    (bc : ElementQ) (dir : PushDirection) (weakest : ElementTypeQ) :
    Option (ℚ × ℚ) :=
  let counter_direction := flip_direction dir
  let delta_axial_curve := fun axial => sub.delta_axial_moment axial dir
  match weakest with
  | .Joint => some (get_node_rotations cfg sub.findNodetype)
  | .LeftBeam =>
      match sub.left_beam with
      | some lb =>
          some ((lb.moment_rotation O counter_direction).rot_y,
            (lb.moment_rotation O counter_direction).rot_c)
      | none => none
  | .RightBeam =>
      match sub.right_beam with
      | some rb =>
          some ((rb.moment_rotation O dir).rot_y, (rb.moment_rotation O dir).rot_c)
      | none => none
  | .AboveColumn =>
      match sub.above_column with
      | some ac =>
          let ax := analytical_intersection O sub.axial
            (fun axial => ac.get_section.domain_MN axial) delta_axial_curve
          some ((ac.moment_rotation O counter_direction true ax).rot_y,
            (ac.moment_rotation O counter_direction true ax).rot_c)
      | none => none
  | .BelowColumn =>
      let ax := analytical_intersection O sub.axial
        (fun axial => bc.get_section.domain_MN axial) delta_axial_curve
      some ((bc.moment_rotation O dir true ax).rot_y,
        (bc.moment_rotation O dir true ax).rot_c)
  | _ => none

/-- single_hierarchy (src/subassembly.py): every present element and the
joint is a separate candidate; its capacity curve is intersected with the
demand line, the weakest candidate is the one with the smallest resulting
moment, and the result is expressed as an equivalent beam moment through
the beam/column conversion factor.  none models the NotImplementedError on
base nodes and the assertion failures. -/
def single_hierarchy (O : Oracles) (cfg : CfgQ) (sub : SubassemblyQ)
    (dir : PushDirection := .Positive) : Option SubHierarchyQ :=
  if sub.findNodetype = .Base then none
  else
    match sub.below_column with
    | none => none
    | some bc =>
        match findWeakest (single_hierarchy_capacities O cfg sub bc dir) with
        | none => none
        | some (weakest, capacity) =>
            (single_hierarchy_rotations O cfg sub bc dir weakest).map
              (fun rots =>
                { beam_eq := 1 / conversion_factor sub * capacity
                  rot_y := rots.1
                  rot_c := rots.2
                  weakest := weakest })

/-- RegularFrame immutable state (src/frame/regular_frame.py): vertical
positions, cumulative floor heights, floor masses and per-node gravity
loads. -/
structure FrameQ where
  lengths : List ℚ
  heights : List ℚ
  masses : List ℚ
  loads : List ℚ
deriving DecidableEq, Repr

/-- RegularFrame.verticals. -/
def FrameQ.verticals (f : FrameQ) : ℕ := f.lengths.length

/-- RegularFrame.floors. -/
def FrameQ.floors (f : FrameQ) : ℕ := f.heights.length

/-- RegularFrame.get_node_vertical (node % verticals). -/
def FrameQ.get_node_vertical (f : FrameQ) (node : ℕ) : ℕ := node % f.verticals

/-- RegularFrame.get_node_floor (floor division of node by verticals). -/
def FrameQ.get_node_floor (f : FrameQ) (node : ℕ) : ℕ := node / f.verticals

/-- Python list slice l[start::step] for a positive step: the elements at
indices start, start+step, start+2*step, ... below the length. -/
def sliceStep (l : List ℚ) (start step : ℕ) : List ℚ :=
  if _hstep : step = 0 then []
  else
    if hlt : start < l.length then
      l.get ⟨start, hlt⟩ :: sliceStep l (start + step) step
    else []
termination_by l.length - start
decreasing_by
  omega

/-- RegularFrame.get_axial: the rounded sum of the gravity loads at the
node and at every node directly above it (loads[node::verticals]). -/
def FrameQ.get_axial (f : FrameQ) (node : ℕ) : ℚ :=
  pyRound2 (sliceStep f.loads node f.verticals).sum

/-- RegularFrame.get_delta_axial (src/frame/regular_frame.py): the
normalized delta axial for a unit column moment; interior verticals return
0 immediately, the upwind and downwind faces use the analytic lambda
ratios of the triangular demand profile. -/
def FrameQ.get_delta_axial (f : FrameQ) (node : ℕ) : ℚ :=
  let vertical := f.get_node_vertical node
  if vertical = 0 ∨ vertical = f.verticals - 1 then
    let direction_multiplier : ℚ := if vertical = 0 then 1 else -1
    let floors : ℚ := (f.floors : ℚ)
    let shear_demand_ratio : ℚ := (3 * (f.verticals : ℚ) - 2) / 2
    let floor : ℚ := (f.get_node_floor node : ℚ)
    let lambda_1 := 2 / ((floors + 1) * floors)
      * (floors * (floors + 1) - floor * (floor - 1)) / 2
    let lambda_2 := 1 / ((floors + 1) * floors) *
      ((floors * (floors + 1) * (2 * floors + 1) - floor * (floor - 1) * (2 * floor - 1)) / 6
        - (floor - 1) * (floors * (floors + 1) - floor * (floor - 1)) / 2)
    direction_multiplier * 4 / (f.lengths.getLastD 0) * lambda_2 / lambda_1
      * shear_demand_ratio
  else 0

/-- Subscript access mr[key] on the MomentRotation dataclass
(src/elements/element.py): the dataclass defines no item access, so every
subscript raises a TypeError; none models that uncaught exception. -/
def momentRotationGetItem (_mr : MomentRotationQ) (_key : String) :
    Option (List ℚ) := none

/-- Aggregation core of column_sidesway (src/src/capacity/column_sway.py)
acting on the ground-column moment-rotation list it collected: the
overturning moment sums the subscripts mr['moment'][-1], the governing
rotations take the minima of mr['rotation'][0] and mr['rotation'][-1], the
effective height is half the total height, and the displacements scale the
rotations by the ground-column length. -/
def column_sidesway_core (mrs : List MomentRotationQ) (total_height : ℚ)
    (ground_column_length : ℚ) (mass : ℚ) : Option FrameCapacityQ := do
  let moments ← mrs.mapM (fun mr => (momentRotationGetItem mr "moment").bind List.getLast?)
  let rotations_first ← mrs.mapM
    (fun mr => (momentRotationGetItem mr "rotation").bind List.head?)
  let rotations_last ← mrs.mapM
    (fun mr => (momentRotationGetItem mr "rotation").bind List.getLast?)
  let overturning_moment := moments.sum
  let yielding_rotation ← rotations_first.min?
  let ultimate_rotation ← rotations_last.min?
  let H_eff := 0.5 * total_height
  some
    { name := "Column Sidesway"
      mass := mass
      disp := [yielding_rotation * ground_column_length,
        ultimate_rotation * ground_column_length]
      base_shear := [overturning_moment / H_eff, overturning_moment / H_eff] }

/-- Column-sidesway aggregation the spec describes.  Modelled from the
spec: base shear equals the sum of the ground columns' capacity moments
divided by half the total height, and the displacements are the minimum
yield and capacity rotations scaled by the ground-column length (the
repository code was intended to read mom_c, rot_y and rot_c of each
MomentRotation). -/
def column_sidesway_spec (mrs : List MomentRotationQ) (total_height : ℚ)
    (ground_column_length : ℚ) (mass : ℚ) : Option FrameCapacityQ := do
  let overturning_moment := (mrs.map (fun mr => mr.mom_c)).sum
  let yielding_rotation ← (mrs.map (fun mr => mr.rot_y)).min?
  let ultimate_rotation ← (mrs.map (fun mr => mr.rot_c)).min?
  let H_eff := 0.5 * total_height
  some
    { name := "Column Sidesway"
      mass := mass
      disp := [yielding_rotation * ground_column_length,
        ultimate_rotation * ground_column_length]
      base_shear := [overturning_moment / H_eff, overturning_moment / H_eff] }

/-- Example steel material used by concrete test fixtures below. -/
def exSteel : SteelQ := { fy := 450000, fu := 540000, E := 200000000, epsilon_u := 3/50 }

/-- Example concrete material used by concrete test fixtures below. -/
def exConcrete : ConcreteQ :=
  { fc := 30000, E := 30000000, epsilon_0 := 1/500, epsilon_u := 7/2000 }

/-- Example 30x50 section used by concrete test fixtures below. -/
def secA : SectionQ :=
  { data := { h := 1/2, b := 3/10, cover := 1/20, As := 1/1000, As1 := 1/1000,
                eq_bar_diameter := 1/50, Ast := 1/10000, s := 1/10 }
    concrete := exConcrete
    steel := exSteel }

/-- Example 30x60 section (deeper than secA) used by concrete test fixtures
below. -/
def secB : SectionQ :=
  { data := { h := 3/5, b := 3/10, cover := 1/20, As := 1/1000, As1 := 1/1000,
                eq_bar_diameter := 1/50, Ast := 1/10000, s := 1/10 }
    concrete := exConcrete
    steel := exSteel }

/-- An internal-node subassembly whose left and right beams have mismatched
depths (0.45 vs 0.55). -/
def mismatchedSub : SubassemblyQ :=
  { node := 4
    delta_axial := 1/10
    axial := 100
    beam_length := 2
    column_length := 3/2
    left_beam := some { sect := secA, L := 4 }
    right_beam := some { sect := secB, L := 4 }
    below_column := some { sect := secA, L := 3 }
    above_column := some { sect := secA, L := 3 } }

/-- Helper used below: the source's internal-node depth validation can never
raise, because it compares the right beam's depth against itself. -/
theorem post_init_raises_false (sub : SubassemblyQ) :
    post_init_depth_check_raises sub = false := by
  unfold post_init_depth_check_raises
  rcases hl : sub.left_beam with _ | lb <;> rcases hr : sub.right_beam with _ | rb <;>
    rcases hb : sub.below_column with _ | bc <;> rcases ha : sub.above_column with _ | ac <;>
      simp [SubassemblyQ.findNodetype, isInternalNode, hl, hr, hb, ha]

/-- C3: on an internal-node subassembly with mismatched beam depths the
source constructor validation returns normally (it never raises, for any
subassembly, since it compares the right beam's depth with itself), while
the validation the spec describes would raise.  This contradicts the
claimed fatal configuration error. -/
theorem c3_depth_validation_never_raises :
    (∃ lb rb : ElementQ, mismatchedSub.left_beam = some lb ∧
      mismatchedSub.right_beam = some rb ∧
      lb.get_section.get_depth ≠ rb.get_section.get_depth) ∧
    isInternalNode mismatchedSub.findNodetype = true ∧
    post_init_depth_check_raises mismatchedSub = false ∧
    post_init_depth_check_spec_raises mismatchedSub = true ∧
    ∀ sub : SubassemblyQ, post_init_depth_check_raises sub = false := by
  refine ⟨⟨{ sect := secA, L := 4 }, { sect := secB, L := 4 }, rfl, rfl,
    by with_unfolding_all decide⟩, by with_unfolding_all decide,
    post_init_raises_false mismatchedSub, by with_unfolding_all decide,
    post_init_raises_false⟩

/-- C9: the demand line is total.  Interior verticals receive delta-axial 0
from the frame, the direction-signed divisor of delta_axial_moment is never
zero (the zero case is replaced by the 10^-6 epsilon), and the demand line
evaluates to -(axial - axial0) divided by that never-zero divisor for every
axial input. -/
theorem c9_delta_axial_moment_total (f : FrameQ) (n : ℕ) (sub : SubassemblyQ)
    (dir : PushDirection) (ax : ℚ)
    (h1 : 0 < f.get_node_vertical n) (h2 : f.get_node_vertical n < f.verticals - 1) :
    f.get_delta_axial n = 0 ∧
    delta_axial_divisor sub dir ≠ 0 ∧
    sub.delta_axial_moment ax dir =
      1 / (- delta_axial_divisor sub dir) * (ax - sub.axial) := by
  refine ⟨?_, ?_, rfl⟩
  · unfold FrameQ.get_delta_axial
    rw [if_neg]
    push_neg
    omega
  · have hx : ∀ q : ℚ, (if q = 0 then (1 / 1000000 : ℚ) else q) ≠ 0 := by
      intro q
      split_ifs with h
      · norm_num
      · exact h
    unfold delta_axial_divisor
    exact hx _

/-- C9 witness: a three-vertical frame whose node 1 is interior. -/
theorem c9_delta_axial_moment_total_witness :
    0 < FrameQ.get_node_vertical ⟨[0, 5, 10], [3], [10], [1, 1, 1, 1, 1, 1]⟩ 1 ∧
    FrameQ.get_node_vertical ⟨[0, 5, 10], [3], [10], [1, 1, 1, 1, 1, 1]⟩ 1 <
      FrameQ.verticals ⟨[0, 5, 10], [3], [10], [1, 1, 1, 1, 1, 1]⟩ - 1 ∧
    (FrameQ.get_delta_axial ⟨[0, 5, 10], [3], [10], [1, 1, 1, 1, 1, 1]⟩ 1 = 0 ∧
      delta_axial_divisor ⟨1, 0, 100, 2, 3, none, none, none, none⟩ .Positive ≠ 0 ∧
      SubassemblyQ.delta_axial_moment ⟨1, 0, 100, 2, 3, none, none, none, none⟩ 5 .Positive =
        1 / (- delta_axial_divisor ⟨1, 0, 100, 2, 3, none, none, none, none⟩ .Positive)
          * (5 - SubassemblyQ.axial ⟨1, 0, 100, 2, 3, none, none, none, none⟩)) :=
  ⟨by decide, by decide,
    c9_delta_axial_moment_total ⟨[0, 5, 10], [3], [10], [1, 1, 1, 1, 1, 1]⟩ 1
      ⟨1, 0, 100, 2, 3, none, none, none, none⟩ .Positive 5 (by decide) (by decide)⟩

/-- C6: the stress-block moment-curvature satisfies the direction/area
symmetry law: a positive-direction evaluation on reinforcement areas
(top, bottom) = (a, b) coincides with the negative-direction evaluation on
the swapped areas, for every oracle interpretation, section, material and
axial load. -/
theorem c6_moment_curvature_symmetry (O : Oracles) (sd : SectionData)
    (conc : ConcreteQ) (steel : SteelQ) (axial a b : ℚ) :
    SectionQ.moment_curvature O
        { data := { sd with As1 := a, As := b }, concrete := conc, steel := steel }
        .Positive axial =
      SectionQ.moment_curvature O
        { data := { sd with As1 := b, As := a }, concrete := conc, steel := steel }
        .Negative axial := rfl

/-- C8: for a non-base subassembly, a negative term under the square root
of the joint capacity formula (tension branch, or compression branch of a
fully internal joint) makes Subassembly.domain_MN return 0 instead of
propagating an error, and when both branches of a fully internal joint are
defined the lesser of the tension and compression capacities is returned. -/
theorem c8_joint_domain_sqrt_clamp (O : Oracles) (cfg : CfgQ) (sub : SubassemblyQ)
    (bc : ElementQ) (axial : ℚ) (hbase : sub.findNodetype ≠ .Base)
    (hbc : sub.below_column = some bc) :
    (joint_tension_sqrt_arg O cfg sub bc axial < 0 →
      sub.domain_MN O cfg axial = some 0) ∧
    (sub.findNodetype = .Internal → 0 ≤ joint_tension_sqrt_arg O cfg sub bc axial →
      joint_compression_sqrt_arg cfg sub bc axial < 0 →
      sub.domain_MN O cfg axial = some 0) ∧
    (sub.findNodetype = .Internal → 0 ≤ joint_tension_sqrt_arg O cfg sub bc axial →
      0 ≤ joint_compression_sqrt_arg cfg sub bc axial →
      sub.domain_MN O cfg axial =
        some (min (joint_compression_capacity O cfg sub bc axial)
          (joint_tension_capacity O cfg sub bc axial))) := by
  have hdom : sub.domain_MN O cfg axial = some (joint_domain_MN O cfg sub bc axial) := by
    unfold SubassemblyQ.domain_MN
    rw [if_neg hbase, hbc]
  refine ⟨?_, ?_, ?_⟩
  · intro hneg
    rw [hdom]
    unfold joint_domain_MN
    rw [if_pos hneg]
  · intro hint htens hcomp
    rw [hdom]
    unfold joint_domain_MN
    rw [if_neg (not_lt.mpr htens), if_pos hint, if_pos hcomp]
  · intro hint htens hcomp
    rw [hdom]
    unfold joint_domain_MN
    rw [if_neg (not_lt.mpr htens), if_pos hint, if_neg (not_lt.mpr hcomp)]

/-- Example configuration values used by concrete test fixtures below. -/
def exCfg : CfgQ :=
  { tension_kj_internal := 1/2
    tension_kj_external := 1/3
    tension_kj_top_internal := 1/2
    tension_kj_top_external := 1/3
    tension_kj_base := 0
    compression_kj_value := 1/2
    external_node_rotation_yielding := 1/100
    external_node_rotation_ultimate := 3/100
    internal_node_rotation_yielding := 1/100
    internal_node_rotation_ultimate := 3/100
    cracking_rotation := 1/1000 }

/-- Example oracle interpretation used by concrete test fixtures below. -/
def exOracles : Oracles :=
  { sqrtQ := fun _ => 1
    maxRoot := fun _ _ _ => 1/100
    minRoot := fun _ _ _ => -1/100
    solve := fun f x0 => x0 + f x0
    curveIntersect := fun _ _ _ _ => none }

/-- A fully internal subassembly fixture built from the example sections. -/
def internalSub : SubassemblyQ :=
  { node := 4
    delta_axial := 1/10
    axial := 100
    beam_length := 2
    column_length := 3/2
    left_beam := some { sect := secA, L := 4 }
    right_beam := some { sect := secA, L := 4 }
    below_column := some { sect := secA, L := 3 }
    above_column := some { sect := secA, L := 3 } }

/-- C8 witness: the clamping theorem applied to the fully internal fixture. -/
theorem c8_joint_domain_sqrt_clamp_witness :
    internalSub.findNodetype ≠ .Base ∧
    internalSub.below_column = some { sect := secA, L := 3 } ∧
    ((joint_tension_sqrt_arg exOracles exCfg internalSub { sect := secA, L := 3 } 50 < 0 →
      internalSub.domain_MN exOracles exCfg 50 = some 0) ∧
    (internalSub.findNodetype = .Internal →
      0 ≤ joint_tension_sqrt_arg exOracles exCfg internalSub { sect := secA, L := 3 } 50 →
      joint_compression_sqrt_arg exCfg internalSub { sect := secA, L := 3 } 50 < 0 →
      internalSub.domain_MN exOracles exCfg 50 = some 0) ∧
    (internalSub.findNodetype = .Internal →
      0 ≤ joint_tension_sqrt_arg exOracles exCfg internalSub { sect := secA, L := 3 } 50 →
      0 ≤ joint_compression_sqrt_arg exCfg internalSub { sect := secA, L := 3 } 50 →
      internalSub.domain_MN exOracles exCfg 50 =
        some (min (joint_compression_capacity exOracles exCfg internalSub
            { sect := secA, L := 3 } 50)
          (joint_tension_capacity exOracles exCfg internalSub { sect := secA, L := 3 } 50)))) :=
  ⟨by with_unfolding_all decide, rfl,
    c8_joint_domain_sqrt_clamp exOracles exCfg internalSub { sect := secA, L := 3 } 50
      (by with_unfolding_all decide) rfl⟩

/-- C4: the column-sidesway aggregation subscripts the MomentRotation
dataclass with string keys, which raises for every ground-column list it
can collect (any frame has at least one vertical), so the code cannot
produce the claimed capacity; the spec-modelled aggregation shows the
intended output shape on the same inputs. -/
theorem c4_column_sidesway_subscript_raises (mrs : List MomentRotationQ)
    (total_height ground_column_length mass : ℚ) (h : mrs ≠ []) :
    column_sidesway_core mrs total_height ground_column_length mass = none := by
  cases mrs with
  | nil => exact absurd rfl h
  | cons mr rest =>
      simp [column_sidesway_core, momentRotationGetItem, List.mapM, List.mapM.loop]

/-- C4 witness: the subscript failure theorem applied to a one-column frame
paired with the spec-modelled aggregation evaluated on the same input. -/
theorem c4_column_sidesway_subscript_raises_witness :
    ([(⟨100, 120, 1/100, 3/100, .Moment⟩ : MomentRotationQ)] ≠
      ([] : List MomentRotationQ)) ∧
    column_sidesway_core [⟨100, 120, 1/100, 3/100, .Moment⟩] 6 3 10 = none ∧
    column_sidesway_spec [⟨100, 120, 1/100, 3/100, .Moment⟩] 6 3 10 =
      some ⟨"Column Sidesway", 10, [3/100, 9/100], [40, 40]⟩ :=
  ⟨by simp,
    c4_column_sidesway_subscript_raises _ 6 3 10 (by simp),
    by with_unfolding_all decide⟩

/-- Helper: the slice is empty once the start index passes the length. -/
theorem sliceStep_of_le (l : List ℚ) (start step : ℕ) (h : l.length ≤ start) :
    sliceStep l start step = [] := by
  rw [sliceStep]
  split_ifs <;> first | rfl | omega

/-- Helper: one unfolding step of the slice while in bounds. -/
theorem sliceStep_of_lt (l : List ℚ) (start step : ℕ) (hstep : step ≠ 0)
    (h : start < l.length) :
    sliceStep l start step = l.get ⟨start, h⟩ :: sliceStep l (start + step) step := by
  rw [sliceStep]
  split_ifs <;> first | rfl | omega

/-- Helper: the sum of the stride-v slice starting at q*v + r equals the sum
of the loads indexed by the floors q..m-1 at offset r, when the list covers
m floors of v verticals. -/
theorem sliceStep_sum_eq (l : List ℚ) (v : ℕ) (hv : 0 < v) (r : ℕ) (hr : r < v)
    (m : ℕ) (hlen : l.length = v * m) :
    ∀ k q, m - q = k →
      (sliceStep l (q * v + r) v).sum =
        ∑ j ∈ Finset.Ico q m, l.getD (r + j * v) 0 := by
  intro k
  induction k with
  | zero =>
      intro q hq
      have hqm : m ≤ q := by omega
      have hempty : l.length ≤ q * v + r := by
        have : v * m ≤ q * v := by
          calc v * m = m * v := Nat.mul_comm v m
          _ ≤ q * v := Nat.mul_le_mul_right v hqm
        omega
      rw [sliceStep_of_le l _ v hempty, Finset.Ico_eq_empty (by omega)]
      simp
  | succ k ih =>
      intro q hq
      have hqm : q < m := by omega
      have hbound : q * v + r < l.length := by
        have h1 : q * v + r < q * v + v := by omega
        have h2 : q * v + v = (q + 1) * v := by ring
        have h3 : (q + 1) * v ≤ m * v := Nat.mul_le_mul_right v (by omega)
        have h4 : m * v = v * m := Nat.mul_comm m v
        omega
      rw [sliceStep_of_lt l _ v (by omega) hbound]
      have hnext : q * v + r + v = (q + 1) * v + r := by ring
      rw [List.sum_cons, hnext, ih (q + 1) (by omega)]
      rw [Finset.sum_eq_sum_Ico_succ_bot hqm]
      congr 1
      have hco : r + q * v = q * v + r := Nat.add_comm _ _
      rw [hco, List.getD_eq_getElem l 0 hbound]
      simp [List.get_eq_getElem]

/-- C10: get_axial(n) is the sum of the gravity loads of node n and of
every node directly above it in the same vertical (the loads at the
indices congruent to n step verticals, one per floor from n's floor to the
top floor), rounded to 2 decimal digits. -/
theorem c10_get_axial_column_sum (f : FrameQ) (n : ℕ) (hv : 0 < f.verticals)
    (hlen : f.loads.length = f.verticals * (f.floors + 1)) (_hn : n < f.loads.length) :
    f.get_axial n =
      pyRound2 (∑ j ∈ Finset.Icc (f.get_node_floor n) f.floors,
        f.loads.getD (f.get_node_vertical n + j * f.verticals) 0) := by
  have hmod : (n / f.verticals) * f.verticals + n % f.verticals = n := by
    rw [Nat.mul_comm]
    exact Nat.div_add_mod n f.verticals
  have hr : n % f.verticals < f.verticals := Nat.mod_lt n hv
  have hs := sliceStep_sum_eq f.loads f.verticals hv (n % f.verticals) hr (f.floors + 1)
    hlen ((f.floors + 1) - n / f.verticals) (n / f.verticals) rfl
  rw [hmod] at hs
  unfold FrameQ.get_axial
  rw [hs, ← Nat.Ico_succ_right]
  rfl

/-- C10 witness: a 2-vertical, 1-floor frame evaluated at node 1. -/
theorem c10_get_axial_column_sum_witness :
    0 < FrameQ.verticals ⟨[0, 4], [3], [10], [1, 2, 3, 4]⟩ ∧
    (FrameQ.loads ⟨[0, 4], [3], [10], [1, 2, 3, 4]⟩).length =
      FrameQ.verticals ⟨[0, 4], [3], [10], [1, 2, 3, 4]⟩ *
        (FrameQ.floors ⟨[0, 4], [3], [10], [1, 2, 3, 4]⟩ + 1) ∧
    (1 : ℕ) < (FrameQ.loads ⟨[0, 4], [3], [10], [1, 2, 3, 4]⟩).length ∧
    FrameQ.get_axial ⟨[0, 4], [3], [10], [1, 2, 3, 4]⟩ 1 =
      pyRound2 (∑ j ∈ Finset.Icc
        (FrameQ.get_node_floor ⟨[0, 4], [3], [10], [1, 2, 3, 4]⟩ 1)
        (FrameQ.floors ⟨[0, 4], [3], [10], [1, 2, 3, 4]⟩),
        (FrameQ.loads ⟨[0, 4], [3], [10], [1, 2, 3, 4]⟩).getD
          (FrameQ.get_node_vertical ⟨[0, 4], [3], [10], [1, 2, 3, 4]⟩ 1 +
            j * FrameQ.verticals ⟨[0, 4], [3], [10], [1, 2, 3, 4]⟩) 0) :=
  ⟨by decide, by decide, by decide,
    c10_get_axial_column_sum ⟨[0, 4], [3], [10], [1, 2, 3, 4]⟩ 1
      (by decide) (by decide) (by decide)⟩

/-- C5: with shear interaction enabled, when the residual shear-equivalent
moment is below the flexural capacity moment and the undamaged
shear-equivalent moment does not exceed the flexural yield moment, the
element's moment-rotation degenerates to the single brittle point: both
moments equal the undamaged shear-equivalent moment, both rotations equal
the yield rotation scaled by (shear moment / flexural yield moment), and
the failure tag is ShearFragile. -/
theorem c5_shear_fragile_branch (O : Oracles) (e : ElementQ) (dir : PushDirection)
    (axial : ℚ)
    (h1 : (e.get_section.shear_capacity O e.L axial).cap_residual * e.L/2 <
      (e.get_section.moment_curvature O dir axial).mom_c)
    (h2 : (e.get_section.shear_capacity O e.L axial).cap_undamaged * e.L/2 ≤
      (e.get_section.moment_curvature O dir axial).mom_y) :
    e.moment_rotation O dir true axial =
      { mom_y := (e.get_section.shear_capacity O e.L axial).cap_undamaged * e.L/2
        mom_c := (e.get_section.shear_capacity O e.L axial).cap_undamaged * e.L/2
        rot_y := (e.get_section.shear_capacity O e.L axial).cap_undamaged * e.L/2
          * ((e.get_section.moment_curvature O dir axial).phi_y * e.L/6)
          / (e.get_section.moment_curvature O dir axial).mom_y
        rot_c := (e.get_section.shear_capacity O e.L axial).cap_undamaged * e.L/2
          * ((e.get_section.moment_curvature O dir axial).phi_y * e.L/6)
          / (e.get_section.moment_curvature O dir axial).mom_y
        failure := .ShearFragile } := by
  unfold ElementQ.moment_rotation
  simp only [Bool.not_true, Bool.false_eq_true, if_false, ElementQ.get_section] at *
  rw [if_neg (not_le.mpr h1), if_pos h2]

/-- Oracle fixture whose square root is identically zero, used by the C5
witness. -/
def exOraclesZ : Oracles :=
  { sqrtQ := fun _ => 0
    maxRoot := fun _ _ _ => 1/1000
    minRoot := fun _ _ _ => -1/100
    solve := fun f x0 => x0 + f x0
    curveIntersect := fun _ _ _ _ => none }

/-- C5 witness: the brittle-shear branch theorem applied to the 30x50
section with clear length 3 under the zero-sqrt oracle fixture. -/
theorem c5_shear_fragile_branch_witness :
    ((ElementQ.get_section ⟨secA, 3⟩).shear_capacity exOraclesZ
        (ElementQ.L ⟨secA, 3⟩) 0).cap_residual * (ElementQ.L ⟨secA, 3⟩)/2 <
      ((ElementQ.get_section ⟨secA, 3⟩).moment_curvature exOraclesZ .Positive 0).mom_c ∧
    ((ElementQ.get_section ⟨secA, 3⟩).shear_capacity exOraclesZ
        (ElementQ.L ⟨secA, 3⟩) 0).cap_undamaged * (ElementQ.L ⟨secA, 3⟩)/2 ≤
      ((ElementQ.get_section ⟨secA, 3⟩).moment_curvature exOraclesZ .Positive 0).mom_y ∧
    ElementQ.moment_rotation exOraclesZ ⟨secA, 3⟩ .Positive true 0 =
      { mom_y := ((ElementQ.get_section ⟨secA, 3⟩).shear_capacity exOraclesZ
          (ElementQ.L ⟨secA, 3⟩) 0).cap_undamaged * (ElementQ.L ⟨secA, 3⟩)/2
        mom_c := ((ElementQ.get_section ⟨secA, 3⟩).shear_capacity exOraclesZ
          (ElementQ.L ⟨secA, 3⟩) 0).cap_undamaged * (ElementQ.L ⟨secA, 3⟩)/2
        rot_y := ((ElementQ.get_section ⟨secA, 3⟩).shear_capacity exOraclesZ
          (ElementQ.L ⟨secA, 3⟩) 0).cap_undamaged * (ElementQ.L ⟨secA, 3⟩)/2
          * (((ElementQ.get_section ⟨secA, 3⟩).moment_curvature exOraclesZ
            .Positive 0).phi_y * (ElementQ.L ⟨secA, 3⟩)/6)
          / ((ElementQ.get_section ⟨secA, 3⟩).moment_curvature exOraclesZ .Positive 0).mom_y
        rot_c := ((ElementQ.get_section ⟨secA, 3⟩).shear_capacity exOraclesZ
          (ElementQ.L ⟨secA, 3⟩) 0).cap_undamaged * (ElementQ.L ⟨secA, 3⟩)/2
          * (((ElementQ.get_section ⟨secA, 3⟩).moment_curvature exOraclesZ
            .Positive 0).phi_y * (ElementQ.L ⟨secA, 3⟩)/6)
          / ((ElementQ.get_section ⟨secA, 3⟩).moment_curvature exOraclesZ .Positive 0).mom_y
        failure := .ShearFragile } :=
  ⟨by with_unfolding_all decide, by with_unfolding_all decide,
    c5_shear_fragile_branch exOraclesZ ⟨secA, 3⟩ .Positive 0
      (by with_unfolding_all decide) (by with_unfolding_all decide)⟩

/-- Helper: a linear segment passes through its left endpoint. -/
theorem linSeg_self (x1 y1 x2 y2 : ℚ) : linSeg x1 y1 x2 y2 x1 = y1 := by
  simp [linSeg]

/-- Helper: a linear segment with distinct abscissas passes through its
right endpoint. -/
theorem linSeg_end (x1 y1 x2 y2 : ℚ) (h : x1 ≠ x2) :
    linSeg x1 y1 x2 y2 x2 = y2 := by
  unfold linSeg
  rw [mul_div_assoc, div_self (sub_ne_zero.mpr (Ne.symm h)), mul_one]
  ring

/-- Helper: the interior numpy.interp walk returns the sample value at each
sample abscissa of a strictly increasing sample list. -/
theorem npInterpAux_breakpoint :
    ∀ (ps : List (ℚ × ℚ)), ps.Pairwise (fun p q => p.1 < q.1) →
      ∀ (i : ℕ) (hi : i < ps.length),
        npInterpAux (ps.get ⟨i, hi⟩).1 ps = (ps.get ⟨i, hi⟩).2 := by
  intro ps
  induction ps with
  | nil => intro _ i hi; exact absurd hi (by simp)
  | cons p tail ih =>
      intro hp i hi
      obtain ⟨p1, p2⟩ := p
      match tail, hi with
      | [], hi =>
          have hi0 : i = 0 := by
            simp at hi
            omega
          subst hi0
          simp [npInterpAux]
      | ⟨q1, q2⟩ :: rest, hi =>
          have hp1 := List.pairwise_cons.mp hp
          have hpq : p1 < q1 := hp1.1 ⟨q1, q2⟩ (List.mem_cons_self _ rest)
          match i with
          | 0 =>
              show npInterpAux p1 ((p1, p2) :: (q1, q2) :: rest) = p2
              unfold npInterpAux
              rw [if_pos (le_of_lt hpq)]
              exact linSeg_self _ _ _ _
          | 1 =>
              show npInterpAux q1 ((p1, p2) :: (q1, q2) :: rest) = q2
              unfold npInterpAux
              rw [if_pos le_rfl]
              exact linSeg_end _ _ _ _ (ne_of_lt hpq)
          | Nat.succ (Nat.succ j) =>
              have hj : j + 1 < ((q1, q2) :: rest).length := by
                simp at hi ⊢
                omega
              have hmem : ((q1, q2) :: rest).get ⟨j + 1, hj⟩ ∈ rest := by
                have hrw : ((q1, q2) :: rest).get ⟨j + 1, hj⟩ =
                    rest.get ⟨j, by simp at hj; omega⟩ := rfl
                rw [hrw]
                exact List.get_mem _ _ _
              have hqx : q1 < (((q1, q2) :: rest).get ⟨j + 1, hj⟩).1 :=
                (List.pairwise_cons.mp hp1.2).1 _ hmem
              have hstep : npInterpAux ((((q1, q2) :: rest).get ⟨j + 1, hj⟩).1)
                  ((p1, p2) :: (q1, q2) :: rest) =
                  npInterpAux ((((q1, q2) :: rest).get ⟨j + 1, hj⟩).1) ((q1, q2) :: rest) := by
                conv_lhs => unfold npInterpAux
                rw [if_neg (not_le.mpr hqx)]
              show npInterpAux ((((q1, q2) :: rest).get ⟨j + 1, hj⟩).1)
                ((p1, p2) :: (q1, q2) :: rest) = (((q1, q2) :: rest).get ⟨j + 1, hj⟩).2
              rw [hstep]
              exact ih hp1.2 (j + 1) hj

/-- Helper: numpy.interp evaluated at a sample abscissa of a strictly
increasing sample list returns the matching sample value. -/
theorem npInterp_breakpoint (xp fp : List ℚ) (hsort : List.Pairwise (· < ·) xp)
    (hlen : fp.length = xp.length) (i : ℕ) (hi : i < xp.length)
    (hif : i < fp.length) (L R : ℚ) :
    npInterp (xp.get ⟨i, hi⟩) xp fp L R = fp.get ⟨i, hif⟩ := by
  cases xp with
  | nil => simp at hi
  | cons x0 xs =>
      have hne : (x0 :: xs : List ℚ) ≠ [] := by simp
      have hget := List.pairwise_iff_get.mp hsort
      have hx0le : x0 ≤ (x0 :: xs).get ⟨i, hi⟩ := by
        rcases Nat.eq_zero_or_pos i with h0 | hpos
        · subst h0
          exact le_refl _
        · exact le_of_lt (hget ⟨0, by omega⟩ ⟨i, hi⟩ hpos)
      have hlaste : (x0 :: xs).getLast hne =
          (x0 :: xs).get ⟨(x0 :: xs).length - 1, by simp⟩ := by
        rw [List.getLast_eq_getElem]
        rfl
      have hxle : (x0 :: xs).get ⟨i, hi⟩ ≤ (x0 :: xs).getLast hne := by
        rw [hlaste]
        rcases Nat.lt_or_ge i ((x0 :: xs).length - 1) with hlt | hge
        · exact le_of_lt (hget ⟨i, hi⟩ ⟨(x0 :: xs).length - 1, by simp⟩ hlt)
        · have hlen2 : (x0 :: xs).length = xs.length + 1 := rfl
          have hieq : i = (x0 :: xs).length - 1 := by omega
          have hfe : (⟨i, hi⟩ : Fin (x0 :: xs).length) =
              ⟨(x0 :: xs).length - 1, by simp⟩ := Fin.ext hieq
          rw [hfe]
      have hzlen : ((x0 :: xs).zip fp).length = (x0 :: xs).length := by
        rw [List.length_zip]
        omega
      have hizip : i < ((x0 :: xs).zip fp).length := by omega
      have hzip : ((x0 :: xs).zip fp).Pairwise (fun p q => p.1 < q.1) := by
        apply List.pairwise_iff_get.mpr
        intro a b hab
        rw [List.get_zip, List.get_zip]
        exact hget ⟨a, by omega⟩ ⟨b, by omega⟩ hab
      have haux := npInterpAux_breakpoint _ hzip i hizip
      rw [List.get_zip] at haux
      simp only at haux
      unfold npInterp
      rw [List.getLast?_eq_getLast_of_ne_nil hne]
      show (if (x0 :: xs).get ⟨i, hi⟩ < x0 then L
        else if (x0 :: xs).getLast hne < (x0 :: xs).get ⟨i, hi⟩ then R
        else npInterpAux ((x0 :: xs).get ⟨i, hi⟩) ((x0 :: xs).zip fp)) = fp.get ⟨i, hif⟩
      rw [if_neg (not_lt.mpr hx0le), if_neg (not_lt.mpr hxle)]
      convert haux using 2

/-- Helper: inserting an element already present in a sorted duplicate-free
list leaves it unchanged. -/
theorem insertSortedDedup_of_mem (x : ℚ) :
    ∀ (l : List ℚ), l.Pairwise (· < ·) → x ∈ l → insertSortedDedup x l = l := by
  intro l
  induction l with
  | nil => intro _ hx; simp at hx
  | cons y ys ih =>
      intro hl hx
      have hy := List.pairwise_cons.mp hl
      unfold insertSortedDedup
      rcases List.mem_cons.mp hx with hxy | hxs
      · rw [if_neg (by rw [hxy]; exact lt_irrefl y), if_pos hxy]
      · have hyx : y < x := hy.1 x hxs
        rw [if_neg (by exact not_lt.mpr (le_of_lt hyx)),
          if_neg (by exact ne_of_gt hyx), ih hy.2 hxs]

/-- Helper: inserting an element smaller than everything in the list simply
conses it. -/
theorem insertSortedDedup_of_forall_lt (x : ℚ) (l : List ℚ)
    (h : ∀ z ∈ l, x < z) : insertSortedDedup x l = x :: l := by
  cases l with
  | nil => rfl
  | cons y ys =>
      unfold insertSortedDedup
      rw [if_pos (h y (List.mem_cons_self y ys))]

/-- Helper: folding the dedup-insertion over an already sorted
duplicate-free list reproduces the list. -/
theorem foldr_insertSortedDedup_self :
    ∀ (l : List ℚ), l.Pairwise (· < ·) → l.foldr insertSortedDedup [] = l := by
  intro l
  induction l with
  | nil => intro _; rfl
  | cons x xs ih =>
      intro hl
      have hx := List.pairwise_cons.mp hl
      show insertSortedDedup x (xs.foldr insertSortedDedup []) = x :: xs
      rw [ih hx.2]
      exact insertSortedDedup_of_forall_lt x xs hx.1

/-- Helper: folding the dedup-insertion of members of a sorted
duplicate-free list into it leaves it unchanged. -/
theorem foldr_insertSortedDedup_absorb (l : List ℚ) (hl : l.Pairwise (· < ·)) :
    ∀ (s : List ℚ), (∀ x ∈ s, x ∈ l) → s.foldr insertSortedDedup l = l := by
  intro s
  induction s with
  | nil => intro _; rfl
  | cons a s2 ih =>
      intro hs
      show insertSortedDedup a (s2.foldr insertSortedDedup l) = l
      rw [ih (fun x hx => hs x (List.mem_cons_of_mem a hx))]
      exact insertSortedDedup_of_mem a l hl (hs a (List.mem_cons_self a s2))

/-- Helper: the sorted set union of a sorted duplicate-free list with
itself is the list. -/
theorem sortedDedupUnion_self (l : List ℚ) (hl : l.Pairwise (· < ·)) :
    sortedDedupUnion l l = l := by
  unfold sortedDedupUnion
  rw [foldr_insertSortedDedup_self l hl]
  exact foldr_insertSortedDedup_absorb l hl l (fun x hx => hx)

/-- Curve A of the superposition example (disp [0,1,2], shear [0,10,10]). -/
def curveA : FrameCapacityQ := ⟨"A", 1, [0, 1, 2], [0, 10, 10]⟩

/-- Curve B of the superposition example (disp [0,1], shear [0,5]). -/
def curveB : FrameCapacityQ := ⟨"B", 1, [0, 1], [0, 5]⟩

/-- C2 counterexample: adding A (disp [0,1,2], shear [0,10,10]) and B
(disp [0,1], shear [0,5]) produces shears [0,15,10], not the claimed
[0,15,15]: beyond B's last breakpoint its re-interpolated shear is 0
(np.interp right=0), not held flat. -/
theorem c2_add_example_not_flat :
    (curveA.add curveB).disp = [0, 1, 2] ∧
    (curveA.add curveB).base_shear = [0, 15, 10] ∧
    (curveA.add curveB).base_shear ≠ [0, 15, 15] := by
  refine ⟨?_, ?_, ?_⟩ <;> with_unfolding_all decide

/-- C2 (amended): FrameCapacity.__add__ returns the sorted union of the
breakpoints, an additive mass, and at each breakpoint the sum of the two
re-interpolated shears with a curve's shear dropping to 0 beyond its last
breakpoint; adding a strictly-sorted curve to itself keeps its breakpoints
and doubles the base shear at each of them, and the A + B example yields
shears [0, 15, 10]. -/
theorem c2_frame_add_superposition (a b c : FrameCapacityQ)
    (hsort : c.disp.Pairwise (· < ·)) (hclen : c.base_shear.length = c.disp.length)
    (i : ℕ) (hi : i < c.disp.length) :
    ((a.add b).disp = sortedDedupUnion a.disp b.disp ∧
      (a.add b).mass = a.mass + b.mass ∧
      (a.add b).base_shear = (sortedDedupUnion a.disp b.disp).map
        (fun d => npInterp d a.disp a.base_shear (a.base_shear.headD 0) 0 +
          npInterp d b.disp b.base_shear (b.base_shear.headD 0) 0)) ∧
    ((c.add c).disp = c.disp ∧
      (c.add c).base_shear.get? i = some (2 * c.base_shear.get ⟨i, by omega⟩)) ∧
    (curveA.add curveB).base_shear = [0, 15, 10] := by
  refine ⟨⟨rfl, rfl, ?_⟩, ⟨?_, ?_⟩, by with_unfolding_all decide⟩
  · show List.zipWith (fun s o => s + o)
      ((sortedDedupUnion a.disp b.disp).map
        (fun d => npInterp d a.disp a.base_shear (a.base_shear.headD 0) 0))
      ((sortedDedupUnion a.disp b.disp).map
        (fun d => npInterp d b.disp b.base_shear (b.base_shear.headD 0) 0)) = _
    rw [List.zipWith_map, List.zipWith_same]
  · show sortedDedupUnion c.disp c.disp = c.disp
    exact sortedDedupUnion_self c.disp hsort
  · show (List.zipWith (fun s o => s + o)
      ((sortedDedupUnion c.disp c.disp).map
        (fun d => npInterp d c.disp c.base_shear (c.base_shear.headD 0) 0))
      ((sortedDedupUnion c.disp c.disp).map
        (fun d => npInterp d c.disp c.base_shear (c.base_shear.headD 0) 0))).get? i = _
    rw [List.zipWith_map, List.zipWith_same, sortedDedupUnion_self c.disp hsort]
    rw [List.get?_map]
    rw [List.get?_eq_get hi]
    simp only [Option.map_some']
    rw [npInterp_breakpoint c.disp c.base_shear hsort (by omega) i hi (by omega)]
    rw [two_mul]

/-- C2 witness: the superposition theorem applied to curves A and B with
the self-addition part evaluated on curve A at breakpoint index 1. -/
theorem c2_frame_add_superposition_witness :
    curveA.disp.Pairwise (· < ·) ∧
    curveA.base_shear.length = curveA.disp.length ∧
    (1 : ℕ) < curveA.disp.length ∧
    (((curveA.add curveB).disp = sortedDedupUnion curveA.disp curveB.disp ∧
      (curveA.add curveB).mass = curveA.mass + curveB.mass ∧
      (curveA.add curveB).base_shear = (sortedDedupUnion curveA.disp curveB.disp).map
        (fun d => npInterp d curveA.disp curveA.base_shear (curveA.base_shear.headD 0) 0 +
          npInterp d curveB.disp curveB.base_shear (curveB.base_shear.headD 0) 0)) ∧
    ((curveA.add curveA).disp = curveA.disp ∧
      (curveA.add curveA).base_shear.get? 1 =
        some (2 * curveA.base_shear.get ⟨1, by with_unfolding_all decide⟩)) ∧
    (curveA.add curveB).base_shear = [0, 15, 10]) :=
  ⟨by with_unfolding_all decide, by with_unfolding_all decide, by with_unfolding_all decide,
    c2_frame_add_superposition curveA curveB curveA
      (by with_unfolding_all decide) (by with_unfolding_all decide) 1
      (by with_unfolding_all decide)⟩

/-- Helper: a linear segment with nonnegative slope is monotone. -/
theorem linSeg_mono (x1 y1 x2 y2 u v : ℚ) (h12 : x1 < x2) (hy : y1 ≤ y2)
    (huv : u ≤ v) : linSeg x1 y1 x2 y2 u ≤ linSeg x1 y1 x2 y2 v := by
  unfold linSeg
  have hpos : 0 < x2 - x1 := by linarith
  have hnum : (y2 - y1) * (u - x1) ≤ (y2 - y1) * (v - x1) := by nlinarith
  have hdiv := (div_le_div_iff_of_pos_right hpos).mpr hnum
  linarith

/-- Helper: a linear segment with nonpositive slope is antitone. -/
theorem linSeg_anti (x1 y1 x2 y2 u v : ℚ) (h12 : x1 < x2) (hy : y2 ≤ y1)
    (huv : u ≤ v) : linSeg x1 y1 x2 y2 v ≤ linSeg x1 y1 x2 y2 u := by
  unfold linSeg
  have hpos : 0 < x2 - x1 := by linarith
  have hnum : (y2 - y1) * (v - x1) ≤ (y2 - y1) * (u - x1) := by nlinarith
  have hdiv := (div_le_div_iff_of_pos_right hpos).mpr hnum
  linarith

/-- Helper: closed form of numpy.interp over a four-point table. -/
theorem npInterp_four (x aA aB aC aD mA mB mC mD L R : ℚ) :
    npInterp x [aA, aB, aC, aD] [mA, mB, mC, mD] L R =
      if x < aA then L
      else if aD < x then R
      else if x ≤ aB then linSeg aA mA aB mB x
      else if x ≤ aC then linSeg aB mB aC mC x
      else if x ≤ aD then linSeg aC mC aD mD x
      else mD := rfl

/-- Helper: the four-point interpolant is antitone to the right of the
third control point, under sorted axials and unimodal moments peaking
there. -/
theorem npInterp4_right_anti (aA aB aC aD mA mB mC mD : ℚ)
    (h01 : aA < aB) (h12 : aB < aC) (h23 : aC < aD) (hm32 : mD ≤ mC)
    (x y : ℚ) (hx : aC ≤ x) (hxy : x ≤ y) (hy : y ≤ aD) :
    npInterp y [aA, aB, aC, aD] [mA, mB, mC, mD] 0 0 ≤
      npInterp x [aA, aB, aC, aD] [mA, mB, mC, mD] 0 0 := by
  rw [npInterp_four, npInterp_four]
  rw [if_neg (show ¬ y < aA by linarith), if_neg (show ¬ aD < y by linarith),
    if_neg (show ¬ y ≤ aB by linarith), if_neg (show ¬ x < aA by linarith),
    if_neg (show ¬ aD < x by linarith), if_neg (show ¬ x ≤ aB by linarith)]
  by_cases hxC : x ≤ aC
  · have hxeq : x = aC := le_antisymm hxC hx
    rw [if_pos hxC]
    by_cases hyC : y ≤ aC
    · rw [if_pos hyC]
      have : y = aC := le_antisymm hyC (le_trans hx hxy)
      rw [this, hxeq]
    · rw [if_neg hyC, if_pos hy, hxeq, linSeg_end aB mB aC mC (ne_of_lt h12)]
      calc linSeg aC mC aD mD y ≤ linSeg aC mC aD mD aC :=
            linSeg_anti aC mC aD mD aC y h23 hm32 (le_trans hx hxy)
        _ = mC := linSeg_self aC mC aD mD
  · rw [if_neg hxC, if_pos (le_trans hxy hy)]
    by_cases hyC : y ≤ aC
    · exact absurd (le_trans hxy hyC) hxC
    · rw [if_neg hyC, if_pos hy]
      exact linSeg_anti aC mC aD mD x y h23 hm32 hxy

/-- Helper: the four-point interpolant is monotone to the left of the third
control point, under sorted axials and unimodal moments peaking there. -/
theorem npInterp4_left_mono (aA aB aC aD mA mB mC mD : ℚ)
    (h01 : aA < aB) (h12 : aB < aC) (h23 : aC < aD)
    (hm01 : mA ≤ mB) (hm12 : mB ≤ mC)
    (x y : ℚ) (hy : aA ≤ y) (hyx : y ≤ x) (hx : x ≤ aC) :
    npInterp y [aA, aB, aC, aD] [mA, mB, mC, mD] 0 0 ≤
      npInterp x [aA, aB, aC, aD] [mA, mB, mC, mD] 0 0 := by
  rw [npInterp_four, npInterp_four]
  rw [if_neg (show ¬ y < aA by linarith), if_neg (show ¬ aD < y by linarith),
    if_neg (show ¬ x < aA by linarith), if_neg (show ¬ aD < x by linarith)]
  by_cases hxB : x ≤ aB
  · rw [if_pos hxB, if_pos (le_trans hyx hxB)]
    exact linSeg_mono aA mA aB mB y x h01 hm01 hyx
  · rw [if_neg hxB, if_pos hx]
    by_cases hyB : y ≤ aB
    · rw [if_pos hyB]
      calc linSeg aA mA aB mB y ≤ linSeg aA mA aB mB aB :=
            linSeg_mono aA mA aB mB y aB h01 hm01 hyB
        _ = mB := linSeg_end aA mA aB mB (ne_of_lt h01)
        _ = linSeg aB mB aC mC aB := (linSeg_self aB mB aC mC).symm
        _ ≤ linSeg aB mB aC mC x :=
            linSeg_mono aB mB aC mC aB x h12 hm12 (le_of_not_le hxB)
    · rw [if_neg hyB, if_pos (le_trans hyx hx)]
      exact linSeg_mono aB mB aC mC y x h12 hm12 hyx

/-- Axial coordinate of the k-th control point of the section's four-point
MN diagram. -/
def fourPointAxial (s : SectionQ) (dir : PushDirection) (k : ℕ) : ℚ :=
  (four_points_MN_domain s.data s.concrete s.steel dir).axial.getD k 0

/-- Moment coordinate of the k-th control point of the section's four-point
MN diagram. -/
def fourPointMoment (s : SectionQ) (dir : PushDirection) (k : ℕ) : ℚ :=
  (four_points_MN_domain s.data s.concrete s.steel dir).moment.getD k 0

/-- Balanced point of the four-point MN diagram: the axial load of control
point C, where the concrete reaches its ultimate strain as the tension
steel reaches yield. -/
def balanced_axial (s : SectionQ) (dir : PushDirection) : ℚ := fourPointAxial s dir 2

/-- Property asserted by the claim: the function does not decrease as the
argument moves away from the center, on either side of it. -/
def NonDecreasingAway (f : ℚ → ℚ) (c : ℚ) : Prop :=
  (∀ x y : ℚ, c ≤ x → x ≤ y → f x ≤ f y) ∧
  (∀ x y : ℚ, y ≤ x → x ≤ c → f x ≤ f y)

/-- C7 counterexample: for the 30x50 example section, the interpolated
MN-domain moment is not non-decreasing in axial distance from the balanced
point: it drops from the balanced moment to 0 at the pure-compression end. -/
theorem c7_domain_MN_not_nondecreasing_away :
    ¬ NonDecreasingAway (fun ax => secA.domain_MN ax .Positive)
      (balanced_axial secA .Positive) := by
  intro h
  have h1 := h.1 (balanced_axial secA .Positive) (fourPointAxial secA .Positive 3)
    (le_refl _) (by with_unfolding_all decide)
  exact absurd h1 (by with_unfolding_all decide)

/-- C7 (amended): for a section whose four computed control points have
strictly increasing axials and unimodal moments peaking at the balanced
(third) point, the interpolated MN moment is non-increasing in axial
distance from the balanced point within the covered range, and is 0 for
every axial load outside the interval from axial_A to axial_D. -/
theorem c7_domain_MN_unimodal (s : SectionQ) (dir : PushDirection)
    (h01 : fourPointAxial s dir 0 < fourPointAxial s dir 1)
    (h12 : fourPointAxial s dir 1 < fourPointAxial s dir 2)
    (h23 : fourPointAxial s dir 2 < fourPointAxial s dir 3)
    (hm01 : fourPointMoment s dir 0 ≤ fourPointMoment s dir 1)
    (hm12 : fourPointMoment s dir 1 ≤ fourPointMoment s dir 2)
    (hm32 : fourPointMoment s dir 3 ≤ fourPointMoment s dir 2) :
    (∀ x y : ℚ, balanced_axial s dir ≤ x → x ≤ y → y ≤ fourPointAxial s dir 3 →
      s.domain_MN y dir ≤ s.domain_MN x dir) ∧
    (∀ x y : ℚ, fourPointAxial s dir 0 ≤ y → y ≤ x → x ≤ balanced_axial s dir →
      s.domain_MN y dir ≤ s.domain_MN x dir) ∧
    (∀ x : ℚ, x < fourPointAxial s dir 0 ∨ fourPointAxial s dir 3 < x →
      s.domain_MN x dir = 0) := by
  have hkey : ∀ x : ℚ, s.domain_MN x dir =
      npInterp x [fourPointAxial s dir 0, fourPointAxial s dir 1,
        fourPointAxial s dir 2, fourPointAxial s dir 3]
        [fourPointMoment s dir 0, fourPointMoment s dir 1,
          fourPointMoment s dir 2, fourPointMoment s dir 3] 0 0 := fun _ => rfl
  refine ⟨?_, ?_, ?_⟩
  · intro x y hx hxy hy
    rw [hkey x, hkey y]
    exact npInterp4_right_anti _ _ _ _ _ _ _ _ h01 h12 h23 hm32 x y hx hxy hy
  · intro x y hy hyx hx
    rw [hkey x, hkey y]
    exact npInterp4_left_mono _ _ _ _ _ _ _ _ h01 h12 h23 hm01 hm12 x y hy hyx hx
  · intro x hx
    rw [hkey x, npInterp_four]
    rcases hx with hlt | hgt
    · rw [if_pos hlt]
    · by_cases hlt : x < fourPointAxial s dir 0
      · rw [if_pos hlt]
      · rw [if_neg hlt, if_pos hgt]

/-- C7 witness: the unimodal theorem applied to the 30x50 example section. -/
theorem c7_domain_MN_unimodal_witness :
    fourPointAxial secA .Positive 0 < fourPointAxial secA .Positive 1 ∧
    fourPointAxial secA .Positive 1 < fourPointAxial secA .Positive 2 ∧
    fourPointAxial secA .Positive 2 < fourPointAxial secA .Positive 3 ∧
    fourPointMoment secA .Positive 0 ≤ fourPointMoment secA .Positive 1 ∧
    fourPointMoment secA .Positive 1 ≤ fourPointMoment secA .Positive 2 ∧
    fourPointMoment secA .Positive 3 ≤ fourPointMoment secA .Positive 2 ∧
    ((∀ x y : ℚ, balanced_axial secA .Positive ≤ x → x ≤ y →
        y ≤ fourPointAxial secA .Positive 3 →
        secA.domain_MN y .Positive ≤ secA.domain_MN x .Positive) ∧
      (∀ x y : ℚ, fourPointAxial secA .Positive 0 ≤ y → y ≤ x →
        x ≤ balanced_axial secA .Positive →
        secA.domain_MN y .Positive ≤ secA.domain_MN x .Positive) ∧
      (∀ x : ℚ, x < fourPointAxial secA .Positive 0 ∨
        fourPointAxial secA .Positive 3 < x →
        secA.domain_MN x .Positive = 0)) :=
  ⟨by with_unfolding_all decide, by with_unfolding_all decide,
    by with_unfolding_all decide, by with_unfolding_all decide,
    by with_unfolding_all decide, by with_unfolding_all decide,
    c7_domain_MN_unimodal secA .Positive (by with_unfolding_all decide)
      (by with_unfolding_all decide) (by with_unfolding_all decide)
      (by with_unfolding_all decide) (by with_unfolding_all decide)
      (by with_unfolding_all decide)⟩

/-- Minimum of a list of capacities (0 for an empty list; the hierarchy
always evaluates at least the below column and the joint). -/
def listMin : List ℚ → ℚ
  | [] => 0
  | x :: xs => xs.foldl min x

/-- Helper: the capacity carried by the find_weakest loop is the running
minimum. -/
theorem findWeakestAux_snd :
    ∀ (l : List (ElementTypeQ × ℚ)) (best : ElementTypeQ × ℚ),
      (findWeakestAux best l).2 = l.foldl (fun acc kv => min acc kv.2) best.2 := by
  intro l
  induction l with
  | nil => intro best; rfl
  | cons kv rest ih =>
      intro best
      unfold findWeakestAux
      rw [List.foldl_cons]
      by_cases h : kv.2 < best.2
      · rw [if_pos h, ih kv, min_eq_right (le_of_lt h)]
      · rw [if_neg h, ih best, min_eq_left (le_of_not_lt h)]

/-- Helper: find_weakest returns the minimum capacity of the map. -/
theorem findWeakest_val (l : List (ElementTypeQ × ℚ)) (k : ElementTypeQ) (v : ℚ)
    (h : findWeakest l = some (k, v)) : v = listMin (l.map Prod.snd) := by
  cases l with
  | nil => exact absurd h (by simp [findWeakest])
  | cons kv rest =>
      unfold findWeakest at h
      have haux := Option.some.inj h
      have hv : v = (findWeakestAux kv rest).2 := by rw [haux]
      rw [hv, findWeakestAux_snd]
      have hlm : listMin ((kv :: rest).map Prod.snd) =
          (rest.map Prod.snd).foldl min kv.2 := rfl
      rw [hlm, List.foldl_map]

/-- C1: whenever single_hierarchy returns a result for a (non-base)
subassembly, its equivalent-beam moment equals the minimum over all
evaluated candidates of the demand line at that candidate's equilibrium
axial load, scaled by the beam/column conversion factor, and the reported
weakest element is the candidate attaining that minimum. -/
theorem c1_single_hierarchy_weakest_link (O : Oracles) (cfg : CfgQ)
    (sub : SubassemblyQ) (bc : ElementQ) (dir : PushDirection) (sh : SubHierarchyQ)
    (hbc : sub.below_column = some bc)
    (h : single_hierarchy O cfg sub dir = some sh) :
    ∃ v : ℚ,
      findWeakest (single_hierarchy_capacities O cfg sub bc dir) =
        some (sh.weakest, v) ∧
      v = listMin ((single_hierarchy_capacities O cfg sub bc dir).map Prod.snd) ∧
      sh.beam_eq = 1 / conversion_factor sub * v := by
  have hbase : sub.findNodetype ≠ .Base := by
    unfold SubassemblyQ.findNodetype
    rw [if_neg (by simp [hbc])]
    split_ifs <;> simp
  unfold single_hierarchy at h
  rw [if_neg hbase, hbc] at h
  simp only at h
  cases hw : findWeakest (single_hierarchy_capacities O cfg sub bc dir) with
  | none =>
      rw [hw] at h
      exact absurd h (by simp)
  | some kv =>
      obtain ⟨wk, wv⟩ := kv
      rw [hw] at h
      simp only at h
      rcases Option.map_eq_some'.mp h with ⟨rots, _hr, heq⟩
      subst heq
      exact ⟨wv, rfl, findWeakest_val _ _ _ hw, rfl⟩

/-- Minimal oracle fixture for the C1 witness: every external numeric
routine returns the simplest admissible value and the solver returns its
seed. -/
def tinyOracles : Oracles :=
  { sqrtQ := fun _ => 0
    maxRoot := fun _ _ _ => 0
    minRoot := fun _ _ _ => 0
    solve := fun _ x0 => x0
    curveIntersect := fun _ _ _ _ => none }

/-- Minimal unit section for the C1 witness. -/
def tinySec : SectionQ :=
  { data := { h := 1, b := 1, cover := 0, As := 0, As1 := 0,
              eq_bar_diameter := 0, Ast := 0, s := 1 }
    concrete := { fc := 1, E := 1, epsilon_0 := 1, epsilon_u := 1 }
    steel := { fy := 1, fu := 2, E := 1, epsilon_u := 1 } }

/-- Minimal fully internal subassembly for the C1 witness. -/
def tinySub : SubassemblyQ :=
  { node := 4
    delta_axial := 1
    axial := 0
    beam_length := 1
    column_length := 1
    left_beam := some ⟨tinySec, 1⟩
    right_beam := some ⟨tinySec, 1⟩
    below_column := some ⟨tinySec, 1⟩
    above_column := some ⟨tinySec, 1⟩ }

/-- Hierarchy result of the C1 fixture computation. -/
def c1sh : SubHierarchyQ := ⟨0, 0, 0, .LeftBeam⟩

set_option maxRecDepth 4000 in
/-- C1 witness: the weakest-link theorem applied to the minimal fully
internal fixture; the left beam is reported with the minimum candidate
capacity. -/
theorem c1_single_hierarchy_weakest_link_witness :
    tinySub.below_column = some ⟨tinySec, 1⟩ ∧
    single_hierarchy tinyOracles exCfg tinySub .Positive = some c1sh ∧
    ∃ v : ℚ,
      findWeakest (single_hierarchy_capacities tinyOracles exCfg tinySub
          ⟨tinySec, 1⟩ .Positive) = some (c1sh.weakest, v) ∧
      v = listMin ((single_hierarchy_capacities tinyOracles exCfg tinySub
          ⟨tinySec, 1⟩ .Positive).map Prod.snd) ∧
      c1sh.beam_eq = 1 / conversion_factor tinySub * v :=
  ⟨rfl, by with_unfolding_all decide,
    c1_single_hierarchy_weakest_link tinyOracles exCfg tinySub
      ⟨tinySec, 1⟩ .Positive c1sh rfl (by with_unfolding_all decide)⟩
